import Mathlib

/-!
Verification development for the Streamlit override dashboard (`src/app.py`).

The app implements a slowly-changing-dimension override workflow.  On
"Submit Updates" it runs, in order:

1. `insert_into_target_table` (app.py 197-253): diffs the edited snapshot
   against the source snapshot with pandas `!=` on the editable column and,
   for each changed row, builds and executes one INSERT into the override
   (target) table, encoding values by hand.
2. `insert_into_source_table` (app.py 256-292): INSERT INTO source
   SELECT ... FROM target src JOIN source tgt ON
   COALESCE(tgt.key,'') = COALESCE(src.key,'') AND
   tgt.<edit> = src.<edit>_OLD WHERE tgt.RECORD_FLAG = 'A',
   inserting a new row flagged 'A' carrying src.<edit>_NEW.
3. `update_old_record` (app.py 295-317): UPDATE source SET record_flag='D'
   FROM target src WHERE COALESCE-joined keys AND tgt.<edit> = src.<edit>_OLD
   AND tgt.record_flag = 'A'.

The relational effect of these statements is embedded below on explicit
table states (lists of rows).  Machine floats of the editable column are
modelled as `PFloat` (a rational or NaN); SQL values of that column as
`Option ℚ` (NULL or a rational).  The string-building layer of step 1
(column lists, value encoding) is embedded separately.
-/

namespace OverrideApp

/-- A pandas cell of the editable (numeric) column: NaN or a numeric value.
`pandas` compares numeric cells by value (int 5 equals float 5.0, both are
`num 5` here), while NaN compares unequal to everything including itself. -/
inductive PFloat where
  | nan : PFloat
  | num (q : ℚ) : PFloat
deriving DecidableEq

/-- A scalar cell of a descriptive (common) column as seen by the override
insert's value-encoding loop (app.py 225-235): missing (`None`), a string,
or a numeric value (possibly NaN, which `pd.isna` also counts as missing). -/
inductive Cell where
  | null : Cell
  | str (s : String) : Cell
  | num (v : PFloat) : Cell
deriving DecidableEq

/-- A natural-key tuple: one SQL value (NULL or a string) per joining key
column, in the configured key order. -/
abbrev Key := List (Option String)

/-- A source-table row: key columns, the editable column (SQL value:
NULL or numeric), RECORD_FLAG, and the remaining descriptive columns. -/
structure SRow where
  key : Key
  val : Option ℚ
  flag : String
  attrs : List Cell
deriving DecidableEq

/-- An override (target-table) record: key columns, the recorded OLD and
NEW values of the editable column, and the copied descriptive columns.
Records whose insert succeeded always carry numeric OLD/NEW (the app
interpolates them as bare text, so non-numeric values abort the insert). -/
structure ORec where
  key : Key
  oldVal : ℚ
  newVal : ℚ
  attrs : List Cell
deriving DecidableEq

/-- The SQL write statements the submit handler can issue, in order:
per-row override inserts, the source-table INSERT...SELECT, and the
demote UPDATE. -/
inductive Stmt where
  | overrideInsert : Stmt
  | sourceInsert : Stmt
  | demoteUpdate : Stmt
deriving DecidableEq

/-- Reading the source table into pandas (`fetch_data`): a SQL NULL in the
editable column becomes NaN. -/
def toPandas : Option ℚ → PFloat
  | none => PFloat.nan
  | some q => PFloat.num q

/-- The pandas `!=` comparison used by the change detector (app.py 200):
numeric cells compare by value; NaN is unequal to everything, itself
included. -/
def pandasNe : PFloat → PFloat → Bool
  | PFloat.num x, PFloat.num y => decide (x ≠ y)
  | _, _ => true

/-- Rows of the source table currently flagged Active; `fetch_data`
(app.py 131) selects exactly these (`WHERE RECORD_FLAG = 'A'`). -/
def activeRows (S : List SRow) : List SRow :=
  S.filter (fun s => s.flag == "A")

/-- The change detector (app.py 200): pair the fetched Active snapshot with
the edited values (the data editor only lets the editable column change)
and keep the pairs whose editable value differs under pandas `!=`. -/
def changedPairs (S : List SRow) (edits : List PFloat) : List (SRow × PFloat) :=
  ((activeRows S).zip edits).filter (fun p => pandasNe (toPandas p.1.val) p.2)

/-- A changed row's override INSERT succeeds only when the interpolated
`{old_value}` and `{new_value}` (app.py 242) are numeric: `str(nan)` is the
bare token `nan`, which is not valid SQL, and a NaN old value likewise
aborts the statement. -/
def rowOk (p : SRow × PFloat) : Bool :=
  p.1.val.isSome &&
    (match p.2 with
     | PFloat.num _ => true
     | PFloat.nan => false)

/-- The override record written for one changed row (app.py 215-246): key
and descriptive columns copied from the (edited) row, OLD from the source
snapshot, NEW from the edited cell.  The defaults in `Option.getD`/the NaN
branch are never used in a successful batch (`rowOk` guards them). -/
def mkRec (p : SRow × PFloat) : ORec :=
  { key := p.1.key
    oldVal := p.1.val.getD 0
    newVal := match p.2 with
      | PFloat.num q => q
      | PFloat.nan => 0
    attrs := p.1.attrs }

/-- COALESCE-based key comparison of `insert_into_source_table`
(app.py 283): `COALESCE(tgt.key,'') = COALESCE(src.key,'')` for every
joining key, conjoined with AND. -/
def insertKeyMatch (tk sk : Key) : Bool :=
  (tk.zip sk).all (fun p => (p.1.getD "") == (p.2.getD ""))

/-- COALESCE-based key comparison of `update_old_record` (app.py 298-301):
textually rebuilt there, with the same shape as in the insert join. -/
def demoteKeyMatch (tk sk : Key) : Bool :=
  (tk.zip sk).all (fun p => (p.1.getD "") == (p.2.getD ""))

/-- SQL equality `tgt.<edit> = src.<edit>_OLD`: only true when the source
value is non-NULL and equals the recorded OLD value. -/
def sqlEqOld (v : Option ℚ) (old : ℚ) : Bool :=
  match v with
  | some a => decide (a = old)
  | none => false

/-- Source rows the INSERT...SELECT of `insert_into_source_table` joins
with a given override record: Active, COALESCE-matching keys, and editable
value equal to the record's OLD value (app.py 280-285). -/
def matchesForInsert (S : List SRow) (r : ORec) : List SRow :=
  S.filter (fun s =>
    insertKeyMatch s.key r.key && sqlEqOld s.val r.oldVal && s.flag == "A")

/-- The row inserted for an override record: columns projected from the
record (`src.{col}`), the editable column set to `src.<edit>_NEW`, and
RECORD_FLAG 'A' (app.py 275-279). -/
def newActiveRow (r : ORec) : SRow :=
  { key := r.key, val := some r.newVal, flag := "A", attrs := r.attrs }

/-- Result rows of the INSERT...SELECT: one per (override record, matching
Active source row) join pair, each projecting the record's columns.  The
SELECT reads the source table as of statement start, so inserted rows do
not join with themselves. -/
def insertedRows (S : List SRow) : List ORec → List SRow
  | [] => []
  | r :: rest => (matchesForInsert S r).map (fun _ => newActiveRow r) ++ insertedRows S rest

/-- Effect of `insert_into_source_table` on the source table. -/
def insertStep (S : List SRow) (T : List ORec) : List SRow :=
  S ++ insertedRows S T

/-- Effect of the demote UPDATE on one source row (app.py 303-310): flip
RECORD_FLAG to 'D' when the row is Active and some override record has
COALESCE-matching keys and OLD value equal to the row's editable value;
otherwise leave the row untouched. -/
def demoteRow (T : List ORec) (s : SRow) : SRow :=
  if s.flag == "A" &&
      T.any (fun r => demoteKeyMatch s.key r.key && sqlEqOld s.val r.oldVal) then
    { s with flag := "D" }
  else
    s

/-- Effect of `update_old_record` on the source table.  The SET clause is
the constant 'D', so multiple matching records still produce one
deterministic row. -/
def demoteStep (S : List SRow) (T : List ORec) : List SRow :=
  S.map (demoteRow T)

/-- The `st.info("No changes detected...")` branch of
`insert_into_target_table` (app.py 202-204) fires exactly when the
detector found no changed row. -/
def noOpReported (S : List SRow) (edits : List PFloat) : Bool :=
  (changedPairs S edits).isEmpty

/-- One submit batch (app.py 319-326): step 1 appends one override record
per changed row (none when nothing changed, in which case it only reports
the no-op message), then steps 2 and 3 are invoked unconditionally.
Returns the new source table, target table, and the list of SQL write
statements issued; `none` when an override insert failed (non-numeric
OLD/NEW interpolation), i.e. the batch did not complete successfully. -/
def runBatch (S : List SRow) (T : List ORec) (edits : List PFloat) :
    Option (List SRow × List ORec × List Stmt) :=
  let chs := changedPairs S edits
  if chs.all rowOk then
    let rs := chs.map mkRec
    let T2 := T ++ rs
    let S2 := demoteStep (insertStep S T2) T2
    some (S2, T2, rs.map (fun _ => Stmt.overrideInsert) ++ [Stmt.sourceInsert, Stmt.demoteUpdate])
  else
    none

/-- A sequence of submit batches, each supplying the edited values for the
then-current Active snapshot; fails as soon as one batch fails. -/
def runBatches (S : List SRow) (T : List ORec) : List (List PFloat) → Option (List SRow × List ORec)
  | [] => some (S, T)
  | e :: rest =>
    match runBatch S T e with
    | none => none
    | some (S2, T2, _) => runBatches S2 T2 rest

/-- Variant of a batch in which the Source Mutator's INSERT...SELECT
raises: `insert_into_source_table` catches the exception and returns
(app.py 291-292), leaving the source table untouched by step 2, after
which `update_old_record` still runs (app.py 326).  The override records
of step 1 are already committed (each `collect()` auto-commits; there is
no surrounding transaction). -/
def runBatchMutatorFails (S : List SRow) (T : List ORec) (edits : List PFloat) :
    Option (List SRow × List ORec × List Stmt) :=
  let chs := changedPairs S edits
  if chs.all rowOk then
    let rs := chs.map mkRec
    let T2 := T ++ rs
    let S2 := demoteStep S T2
    some (S2, T2, rs.map (fun _ => Stmt.overrideInsert) ++ [Stmt.sourceInsert, Stmt.demoteUpdate])
  else
    none

/-- At most one source row per natural key is Active: any two entries of
the table that are both flagged 'A' have different key tuples. -/
def atMostOneActive (S : List SRow) : Prop :=
  S.Pairwise (fun a b => a.flag = "A" → b.flag = "A" → a.key ≠ b.key)

/-- All key tuples appearing in the two tables. -/
def keysOf (S : List SRow) (T : List ORec) : List Key :=
  S.map SRow.key ++ T.map ORec.key

/-- The COALESCE(·,'') key encoding distinguishes every two distinct key
tuples in play: no NULL key column coincides with an empty-string key
column of another row. -/
def KeysOK (S : List SRow) (T : List ORec) : Prop :=
  ∀ k₁ ∈ keysOf S T, ∀ k₂ ∈ keysOf S T, insertKeyMatch k₁ k₂ = true → k₁ = k₂

/-- No Active row's editable value equals the OLD value of a
COALESCE-key-matching override record.  The demote UPDATE establishes this
after every batch, and it makes old override records inert in later
batches. -/
def NoOldActive (S : List SRow) (T : List ORec) : Prop :=
  ∀ s ∈ S, s.flag = "A" → ∀ r ∈ T,
    insertKeyMatch s.key r.key = true → sqlEqOld s.val r.oldVal = false

/-- The inductive invariant of the batch loop. -/
def Good (S : List SRow) (T : List ORec) : Prop :=
  KeysOK S T ∧ atMostOneActive S ∧ NoOldActive S T

/-- Python `str()` of a float of the editable column.  An integral float
renders as its digits followed by ".0" (exactly Python's behaviour); a
non-integral rational is rendered with Lean's rational repr, a benign
simplification never exercised by the concrete theorems below. -/
def pyStrNum (q : ℚ) : String :=
  if q.den = 1 then toString q.num ++ ".0" else toString q

/-- Python `str()` of an editable-column cell: `str(float("nan"))` is the
bare token `nan`; numbers render decimally. -/
def pyFloatStr : PFloat → String
  | PFloat.nan => "nan"
  | PFloat.num q => pyStrNum q

/-- pandas `pd.isna` on a scalar cell (app.py 228): true for `None` and
for NaN, false for strings and ordinary numbers. -/
def isna : Cell → Bool
  | Cell.null => true
  | Cell.num PFloat.nan => true
  | _ => false

/-- Python's `value.replace("\x27", "\x27\x27")` (app.py 232): every single
quote of the string becomes two single quotes; all other characters are
kept.  Spelled on the character list, which is exactly what `str.replace`
with a single-character pattern does. -/
def escapeQuotes (s : String) : String :=
  String.mk (s.data.foldr
    (fun c acc => if c = '\x27' then '\x27' :: '\x27' :: acc else c :: acc) [])

/-- Value encoding of one common-column cell for the override INSERT
(app.py 225-235): missing values become the SQL keyword NULL, strings are
quote-escaped and wrapped in single quotes, anything else is `str(value)`. -/
def encodeCell (c : Cell) : String :=
  if isna c then "NULL"
  else
    match c with
    | Cell.str s => "\x27" ++ escapeQuotes s ++ "\x27"
    | Cell.num v => pyFloatStr v
    | Cell.null => "NULL"

/-- The VALUES clause of the override INSERT (app.py 237-243, whitespace
normalized): the joined encoded common-column values, then the quoted
as-of date, CURRENT_TIMESTAMP(), the bare interpolations of
`str(old_value)` and `str(new_value)`, the literal flag \x27O\x27, and the
quoted as-at date. -/
def buildInsertValues (commons : List Cell) (asOf asAt : String)
    (oldV newV : PFloat) : String :=
  let values_to_insert := commons.map encodeCell
  let values_to_insert_str := String.intercalate ", " values_to_insert
  values_to_insert_str ++ ",\x27" ++ asOf ++ "\x27, CURRENT_TIMESTAMP(), " ++
    pyFloatStr oldV ++ ", " ++ pyFloatStr newV ++ ", \x27O\x27, \x27" ++ asAt ++ "\x27"

/-- The exclusion list of the common-column computation, in source order
(app.py 213). -/
def excludedFromCommon (edit : String) : List String :=
  [edit, "AS_AT_DATE", "RECORD_FLAG", "AS_OF_DATE"]

/-- Common columns of the override INSERT (app.py 213): source-frame
columns that are also target-table columns and not excluded. -/
def commonColumns (srcCols tgtCols : List String) (edit : String) : List String :=
  srcCols.filter (fun c => tgtCols.contains c && !((excludedFromCommon edit).contains c))

/-- The column list of the override INSERT (app.py 222). -/
def columnsToInsert (srcCols tgtCols : List String) (edit : String) : List String :=
  commonColumns srcCols tgtCols edit ++
    ["AS_OF_DATE", "SRC_INS_TS", edit ++ "_OLD", edit ++ "_NEW", "RECORD_FLAG", "AS_AT_DATE"]

/-- RECORD_FLAG value written by the Override Recorder (app.py 242). -/
def overrideRecordFlag : String := "O"

/-- RECORD_FLAG value of an Active source row. -/
def sourceActiveFlag : String := "A"

/-- RECORD_FLAG value written by the demote update (app.py 305). -/
def sourceDeprecatedFlag : String := "D"

/-- Modelled from the spec (section 4.2): the common-column set in the
spec's words, excluding the editable column, RECORD_FLAG, AS_OF_DATE and
AS_AT_DATE from the columns shared with the target schema. -/
def specCommonColumns (srcCols tgtCols : List String) (edit : String) : List String :=
  srcCols.filter (fun c =>
    tgtCols.contains c && !(c == edit) && !(c == "RECORD_FLAG") &&
      !(c == "AS_OF_DATE") && !(c == "AS_AT_DATE"))

/-- Modelled from the spec (section 4.3, join semantics): strict null-safe
equality of two key values.  NULL equals NULL; NULL differs from every
non-NULL value; non-NULL values compare as values. -/
def specNullSafeEq : Option String → Option String → Bool
  | none, none => true
  | some x, some y => x == y
  | _, _ => false

/-- Modelled from the spec: null-safe comparison applied to every joining
key, conjoined with AND. -/
def specNullSafeKeys (tk sk : Key) : Bool :=
  (tk.zip sk).all (fun p => specNullSafeEq p.1 p.2)

/-- Placeholder row for the frame statements written with `List.getD`;
never reachable under the stated bounds. -/
def dummyRow : SRow :=
  { key := [], val := none, flag := "", attrs := [] }

instance (S : List SRow) : Decidable (atMostOneActive S) := by
  unfold atMostOneActive; infer_instance

instance (S : List SRow) (T : List ORec) : Decidable (KeysOK S T) := by
  unfold KeysOK; infer_instance

instance (S : List SRow) (T : List ORec) : Decidable (NoOldActive S T) := by
  unfold NoOldActive; infer_instance

lemma keyMatch_refl (k : Key) : insertKeyMatch k k = true := by
  induction k with
  | nil => rfl
  | cons a t ih =>
    simp only [insertKeyMatch, List.zip_cons_cons, List.all_cons, Bool.and_eq_true]
    exact ⟨by simp, by simpa [insertKeyMatch] using ih⟩

lemma demoteKeyMatch_eq (tk sk : Key) : demoteKeyMatch tk sk = insertKeyMatch tk sk := rfl

lemma demoteRow_key (T : List ORec) (s : SRow) : (demoteRow T s).key = s.key := by
  unfold demoteRow; split <;> rfl

lemma demoteRow_val (T : List ORec) (s : SRow) : (demoteRow T s).val = s.val := by
  unfold demoteRow; split <;> rfl

lemma demoteRow_attrs (T : List ORec) (s : SRow) : (demoteRow T s).attrs = s.attrs := by
  unfold demoteRow; split <;> rfl

lemma demoteRow_flag (T : List ORec) (s : SRow) :
    (demoteRow T s).flag = s.flag ∨ (demoteRow T s).flag = "D" := by
  unfold demoteRow; split
  · exact Or.inr rfl
  · exact Or.inl rfl

lemma demoteRow_of_not_active (T : List ORec) (s : SRow) (h : s.flag ≠ "A") :
    demoteRow T s = s := by
  unfold demoteRow
  rw [if_neg]
  simp [h]

lemma demoteRow_active_eq (T : List ORec) (s : SRow) (h : (demoteRow T s).flag = "A") :
    demoteRow T s = s ∧ s.flag = "A" ∧
      ∀ r ∈ T, (demoteKeyMatch s.key r.key && sqlEqOld s.val r.oldVal) = false := by
  unfold demoteRow at h ⊢
  by_cases hc :
      (s.flag == "A" && T.any fun r => demoteKeyMatch s.key r.key && sqlEqOld s.val r.oldVal) = true
  · rw [if_pos hc] at h
    simp at h
  · rw [if_neg hc] at h ⊢
    refine ⟨rfl, h, ?_⟩
    rw [h] at hc
    simp only [beq_self_eq_true, Bool.true_and] at hc
    intro r hr
    exact Bool.eq_false_iff.mpr ((List.any_eq_false.mp (Bool.of_not_eq_true hc)) r hr)

lemma mem_activeRows {S : List SRow} {s : SRow} (h : s ∈ activeRows S) :
    s ∈ S ∧ s.flag = "A" := by
  simp only [activeRows, List.mem_filter, beq_iff_eq] at h
  exact h

lemma changed_fst {S : List SRow} {e : List PFloat} {p : SRow × PFloat}
    (h : p ∈ changedPairs S e) : p.1 ∈ S ∧ p.1.flag = "A" := by
  simp only [changedPairs, List.mem_filter] at h
  exact mem_activeRows (List.of_mem_zip h.1).1

lemma pairwise_zip_left {α β : Type _} {Q : α → α → Prop} :
    ∀ {l : List α} {e : List β}, l.Pairwise Q →
      (l.zip e).Pairwise (fun p q => Q p.1 q.1) := by
  intro l
  induction l with
  | nil => intro e _; simp
  | cons a t ih =>
    intro e h
    cases e with
    | nil => simp
    | cons b eb =>
      rw [List.zip_cons_cons]
      rcases List.pairwise_cons.mp h with ⟨hhead, htail⟩
      refine List.Pairwise.cons ?_ (ih htail)
      intro q hq
      exact hhead q.1 (List.of_mem_zip hq).1

lemma pairwise_keys_of_active {l : List SRow}
    (h : l.Pairwise (fun a b => a.flag = "A" → b.flag = "A" → a.key ≠ b.key))
    (hall : ∀ s ∈ l, s.flag = "A") :
    l.Pairwise (fun a b => a.key ≠ b.key) := by
  induction l with
  | nil => exact List.Pairwise.nil
  | cons a t ih =>
    rcases List.pairwise_cons.mp h with ⟨hh, ht⟩
    refine List.Pairwise.cons ?_ (ih ht (fun s hs => hall s (List.mem_cons_of_mem _ hs)))
    intro b hb
    exact hh b hb (hall a (List.mem_cons_self _ _)) (hall b (List.mem_cons_of_mem _ hb))

lemma active_key_unique : ∀ {S : List SRow}, atMostOneActive S → ∀ {a b : SRow},
    a ∈ S → b ∈ S → a.flag = "A" → b.flag = "A" → a.key = b.key → a = b := by
  intro S
  induction S with
  | nil => intro _ a b ha; cases ha
  | cons x t ih =>
    intro hA a b ha hb haA hbA hk
    rcases List.pairwise_cons.mp hA with ⟨hh, ht⟩
    rcases List.mem_cons.mp ha with rfl | ha2
    · rcases List.mem_cons.mp hb with rfl | hb2
      · rfl
      · exact absurd hk (hh b hb2 haA hbA)
    · rcases List.mem_cons.mp hb with rfl | hb2
      · exact absurd hk.symm (hh a ha2 hbA haA)
      · exact ih ht ha2 hb2 haA hbA hk

lemma mem_matches {S : List SRow} {r : ORec} {s : SRow} (h : s ∈ matchesForInsert S r) :
    s ∈ S ∧ s.flag = "A" ∧ insertKeyMatch s.key r.key = true ∧
      sqlEqOld s.val r.oldVal = true := by
  simp only [matchesForInsert, List.mem_filter, Bool.and_eq_true, beq_iff_eq] at h
  tauto

lemma matches_nil_of_noOld {S : List SRow} {T : List ORec} (hNO : NoOldActive S T)
    {r : ORec} (hr : r ∈ T) : matchesForInsert S r = [] := by
  unfold matchesForInsert
  rw [List.filter_eq_nil_iff]
  intro s hs hpred
  simp only [Bool.and_eq_true, beq_iff_eq] at hpred
  obtain ⟨⟨hkm, hsq⟩, hfl⟩ := hpred
  rw [hNO s hs hfl r hr hkm] at hsq
  cases hsq

lemma insertedRows_append (S : List SRow) (T₁ T₂ : List ORec) :
    insertedRows S (T₁ ++ T₂) = insertedRows S T₁ ++ insertedRows S T₂ := by
  induction T₁ with
  | nil => rfl
  | cons r t ih => simp [insertedRows, ih]

lemma insertedRows_nil_of_noOld {S : List SRow} {T : List ORec} (hNO : NoOldActive S T) :
    insertedRows S T = [] := by
  induction T with
  | nil => rfl
  | cons r t ih =>
    have hNOt : NoOldActive S t :=
      fun s hs hf r' hr' => hNO s hs hf r' (List.mem_cons_of_mem _ hr')
    simp [insertedRows, matches_nil_of_noOld hNO (List.mem_cons_self _ _), ih hNOt]

lemma mem_insertedRows {S : List SRow} : ∀ {T : List ORec} {b : SRow},
    b ∈ insertedRows S T → ∃ r ∈ T, b = newActiveRow r := by
  intro T
  induction T with
  | nil => intro b h; cases h
  | cons r t ih =>
    intro b h
    simp only [insertedRows, List.mem_append] at h
    rcases h with h1 | h2
    · rcases List.mem_map.mp h1 with ⟨s, _, rfl⟩
      exact ⟨r, List.mem_cons_self _ _, rfl⟩
    · rcases ih h2 with ⟨r', hr', rfl⟩
      exact ⟨r', List.mem_cons_of_mem _ hr', rfl⟩

lemma matches_key_eq {S : List SRow} {T : List ORec} (hK : KeysOK S T) {r : ORec}
    (hrk : r.key ∈ S.map SRow.key) {s : SRow} (hs : s ∈ matchesForInsert S r) :
    s.key = r.key := by
  obtain ⟨hsS, _, hkm, _⟩ := mem_matches hs
  exact hK s.key (List.mem_append.mpr (Or.inl (List.mem_map.mpr ⟨s, hsS, rfl⟩)))
    r.key (List.mem_append.mpr (Or.inl hrk)) hkm

lemma matches_len_le_one {S : List SRow} {T : List ORec} (hK : KeysOK S T)
    (hA : atMostOneActive S) {r : ORec} (hrk : r.key ∈ S.map SRow.key) :
    (matchesForInsert S r).length ≤ 1 := by
  cases hm : matchesForInsert S r with
  | nil => simp
  | cons s l =>
    cases l with
    | nil => simp
    | cons s2 l2 =>
      exfalso
      have hsub : List.Sublist (matchesForInsert S r) S := List.filter_sublist _
      have hpw := List.Pairwise.sublist hsub hA
      rw [hm] at hpw
      have hs : s ∈ matchesForInsert S r := by rw [hm]; exact List.mem_cons_self _ _
      have hs2 : s2 ∈ matchesForInsert S r := by
        rw [hm]; exact List.mem_cons_of_mem _ (List.mem_cons_self _ _)
      have hR := (List.pairwise_cons.mp hpw).1 s2 (List.mem_cons_self _ _)
      obtain ⟨_, hfA, _, _⟩ := mem_matches hs
      obtain ⟨_, hf2, _, _⟩ := mem_matches hs2
      exact hR hfA hf2 ((matches_key_eq hK hrk hs).trans (matches_key_eq hK hrk hs2).symm)

lemma pairwise_of_length_le_one {α : Type _} {R : α → α → Prop} {l : List α}
    (h : l.length ≤ 1) : l.Pairwise R := by
  cases l with
  | nil => exact List.Pairwise.nil
  | cons a t =>
    cases t with
    | nil => simp
    | cons b u => simp at h

lemma insertedRows_pairwise_keys {S : List SRow} {T : List ORec} (hK : KeysOK S T)
    (hA : atMostOneActive S) :
    ∀ {rs : List ORec}, (∀ r ∈ rs, r.key ∈ S.map SRow.key) →
      rs.Pairwise (fun r₁ r₂ => r₁.key ≠ r₂.key) →
      (insertedRows S rs).Pairwise (fun a b => a.key ≠ b.key) := by
  intro rs
  induction rs with
  | nil => intro _ _; exact List.Pairwise.nil
  | cons r rt ih =>
    intro hks hpw
    rcases List.pairwise_cons.mp hpw with ⟨hh, ht⟩
    simp only [insertedRows]
    rw [List.pairwise_append]
    refine ⟨?_, ih (fun r' h => hks r' (List.mem_cons_of_mem _ h)) ht, ?_⟩
    · have hlen := matches_len_le_one hK hA (hks r (List.mem_cons_self _ _))
      exact pairwise_of_length_le_one (by simpa using hlen)
    · intro a ha b hb
      rcases List.mem_map.mp ha with ⟨_, _, rfl⟩
      rcases mem_insertedRows hb with ⟨r', hr', rfl⟩
      simpa [newActiveRow] using hh r' hr'

lemma noOld_of_demote (S' : List SRow) (T' : List ORec) :
    NoOldActive (demoteStep S' T') T' := by
  intro s hs hA r hr hkm
  simp only [demoteStep] at hs
  rcases List.mem_map.mp hs with ⟨s0, hs0, rfl⟩
  obtain ⟨heq, hfl, hall⟩ := demoteRow_active_eq T' s0 hA
  rw [heq] at hkm ⊢
  have hfalse := hall r hr
  rw [demoteKeyMatch_eq, hkm] at hfalse
  simpa using hfalse

lemma key_mem_of_S2 {S : List SRow} {T2 : List ORec} {k : Key}
    (h : k ∈ (demoteStep (insertStep S T2) T2).map SRow.key) :
    k ∈ S.map SRow.key ∨ k ∈ T2.map ORec.key := by
  rcases List.mem_map.mp h with ⟨s2, hs2, rfl⟩
  simp only [demoteStep] at hs2
  rcases List.mem_map.mp hs2 with ⟨s1, hs1, rfl⟩
  rw [demoteRow_key]
  simp only [insertStep, List.mem_append] at hs1
  rcases hs1 with h1 | h2
  · exact Or.inl (List.mem_map.mpr ⟨s1, h1, rfl⟩)
  · rcases mem_insertedRows h2 with ⟨r, hr, rfl⟩
    exact Or.inr (List.mem_map.mpr ⟨r, hr, rfl⟩)

lemma amoa_step {S : List SRow} {T : List ORec} {rs : List ORec}
    (hK : KeysOK S T) (hA : atMostOneActive S) (hNO : NoOldActive S T)
    (hrsrc : ∀ r ∈ rs, ∃ s ∈ S, s.flag = "A" ∧ s.key = r.key ∧ s.val = some r.oldVal)
    (hrpw : rs.Pairwise (fun r₁ r₂ => r₁.key ≠ r₂.key)) :
    atMostOneActive (demoteStep (insertStep S (T ++ rs)) (T ++ rs)) := by
  have hIold : insertedRows S T = [] := insertedRows_nil_of_noOld hNO
  have hIR : insertStep S (T ++ rs) = S ++ insertedRows S rs := by
    simp [insertStep, insertedRows_append, hIold]
  have hkeys : ∀ r ∈ rs, r.key ∈ S.map SRow.key := by
    intro r hr
    obtain ⟨s, hsS, _, hk, _⟩ := hrsrc r hr
    exact List.mem_map.mpr ⟨s, hsS, hk⟩
  have hIpw := insertedRows_pairwise_keys hK hA hkeys hrpw
  have hA' : S.Pairwise (fun a b => a.flag = "A" → b.flag = "A" → a.key ≠ b.key) := hA
  unfold atMostOneActive demoteStep
  rw [hIR, List.pairwise_map, List.pairwise_append]
  refine ⟨?_, ?_, ?_⟩
  · refine hA'.imp ?_
    intro a b hR hfa hfb
    obtain ⟨_, haA, _⟩ := demoteRow_active_eq _ a hfa
    obtain ⟨_, hbA, _⟩ := demoteRow_active_eq _ b hfb
    rw [demoteRow_key, demoteRow_key]
    exact hR haA hbA
  · refine hIpw.imp ?_
    intro a b hk _ _
    rw [demoteRow_key, demoteRow_key]
    exact hk
  · intro a ha b hb hfa hfb
    obtain ⟨_, haA, hanom⟩ := demoteRow_active_eq _ a hfa
    rcases mem_insertedRows hb with ⟨r, hrrs, rfl⟩
    rw [demoteRow_key, demoteRow_key]
    intro hkeq
    have hkeq' : a.key = r.key := by simpa [newActiveRow] using hkeq
    obtain ⟨s0, hs0S, hs0A, hs0k, hs0v⟩ := hrsrc r hrrs
    have hae : a = s0 :=
      active_key_unique hA ha hs0S haA hs0A (hkeq'.trans hs0k.symm)
    have hrT2 : r ∈ T ++ rs := List.mem_append.mpr (Or.inr hrrs)
    have hfalse := hanom r hrT2
    rw [demoteKeyMatch_eq] at hfalse
    have hkm : insertKeyMatch a.key r.key = true := by
      rw [hkeq']; exact keyMatch_refl _
    rw [hkm] at hfalse
    simp only [Bool.true_and] at hfalse
    rw [hae, hs0v] at hfalse
    simp [sqlEqOld] at hfalse

lemma changed_pairwise_keys {S : List SRow} {e : List PFloat} (hA : atMostOneActive S) :
    (changedPairs S e).Pairwise (fun p q => p.1.key ≠ q.1.key) := by
  have h1 : (activeRows S).Pairwise (fun a b => a.key ≠ b.key) := by
    refine pairwise_keys_of_active ?_ ?_
    · exact List.Pairwise.sublist (List.filter_sublist _) hA
    · intro s hs; exact (mem_activeRows hs).2
  have h2 := pairwise_zip_left (e := e) h1
  exact List.Pairwise.sublist (List.filter_sublist _) h2

lemma mkRec_src {S : List SRow} {e : List PFloat}
    (hok : (changedPairs S e).all rowOk = true) :
    ∀ r ∈ (changedPairs S e).map mkRec,
      ∃ s ∈ S, s.flag = "A" ∧ s.key = r.key ∧ s.val = some r.oldVal := by
  intro r hr
  rcases List.mem_map.mp hr with ⟨p, hp, rfl⟩
  obtain ⟨hpS, hpA⟩ := changed_fst hp
  refine ⟨p.1, hpS, hpA, rfl, ?_⟩
  have hok1 := List.all_eq_true.mp hok p hp
  simp only [rowOk, Bool.and_eq_true] at hok1
  rcases Option.isSome_iff_exists.mp hok1.1 with ⟨a, ha⟩
  rw [ha]
  simp [mkRec, ha]

lemma good_preserved {S : List SRow} {T : List ORec} {e : List PFloat}
    {S2 : List SRow} {T2 : List ORec} {log : List Stmt}
    (hG : Good S T) (h : runBatch S T e = some (S2, T2, log)) : Good S2 T2 := by
  obtain ⟨hK, hA, hNO⟩ := hG
  by_cases hok : (changedPairs S e).all rowOk = true
  · simp only [runBatch, hok, if_true] at h
    have h2 := Option.some.inj h
    simp only [Prod.mk.injEq] at h2
    obtain ⟨h3, h4, _⟩ := h2
    subst h3
    subst h4
    have hrsrc := mkRec_src hok
    have hrpw : ((changedPairs S e).map mkRec).Pairwise (fun r₁ r₂ => r₁.key ≠ r₂.key) :=
      List.pairwise_map.mpr (changed_pairwise_keys hA)
    have hkeys : ∀ r ∈ (changedPairs S e).map mkRec, r.key ∈ S.map SRow.key := by
      intro r hr
      obtain ⟨s, hsS, _, hk, _⟩ := hrsrc r hr
      exact List.mem_map.mpr ⟨s, hsS, hk⟩
    refine ⟨?_, amoa_step hK hA hNO hrsrc hrpw, noOld_of_demote _ _⟩
    have hsub : ∀ k, k ∈ keysOf
        (demoteStep (insertStep S (T ++ (changedPairs S e).map mkRec))
          (T ++ (changedPairs S e).map mkRec))
        (T ++ (changedPairs S e).map mkRec) → k ∈ keysOf S T := by
      intro k hk
      unfold keysOf at hk ⊢
      rcases List.mem_append.mp hk with hk1 | hk2
      · rcases key_mem_of_S2 hk1 with hs | ht
        · exact List.mem_append.mpr (Or.inl hs)
        · rw [List.map_append] at ht
          rcases List.mem_append.mp ht with ht1 | ht2
          · exact List.mem_append.mpr (Or.inr ht1)
          · rcases List.mem_map.mp ht2 with ⟨r, hr, rfl⟩
            exact List.mem_append.mpr (Or.inl (hkeys r hr))
      · rw [List.map_append] at hk2
        rcases List.mem_append.mp hk2 with ht1 | ht2
        · exact List.mem_append.mpr (Or.inr ht1)
        · rcases List.mem_map.mp ht2 with ⟨r, hr, rfl⟩
          exact List.mem_append.mpr (Or.inl (hkeys r hr))
    exact fun k1 h1 k2 hh2 hm => hK k1 (hsub k1 h1) k2 (hsub k2 hh2) hm
  · simp only [runBatch, hok, if_false] at h
    cases h

lemma good_runBatches : ∀ {bs : List (List PFloat)} {S : List SRow} {T : List ORec}
    {Sf : List SRow} {Tf : List ORec}, Good S T →
    runBatches S T bs = some (Sf, Tf) → Good Sf Tf := by
  intro bs
  induction bs with
  | nil =>
    intro S T Sf Tf hG h
    simp only [runBatches] at h
    have h2 := Option.some.inj h
    simp only [Prod.mk.injEq] at h2
    obtain ⟨rfl, rfl⟩ := h2
    exact hG
  | cons e rest ih =>
    intro S T Sf Tf hG h
    simp only [runBatches] at h
    cases hrb : runBatch S T e with
    | none => rw [hrb] at h; cases h
    | some x =>
      rcases x with ⟨S2, T2, log⟩
      rw [hrb] at h
      exact ih (good_preserved hG hrb) h

lemma getD_map_append {α β : Type _} (f : α → β) (l₁ l₂ : List α) (d : β) (d' : α)
    {i : ℕ} (hi : i < l₁.length) :
    ((l₁ ++ l₂).map f).getD i d = f (l₁.getD i d') := by
  rw [List.getD_eq_getElem?_getD, List.getElem?_map, List.getElem?_append_left hi,
    List.getElem?_eq_getElem hi, List.getD_eq_getElem?_getD, List.getElem?_eq_getElem hi]
  rfl

lemma runBatch_first (k : Key) (ats : List Cell) (a b : ℚ) (hab : a ≠ b) :
    runBatch [⟨k, some a, "A", ats⟩] [] [PFloat.num b] =
      some ([⟨k, some a, "D", ats⟩, ⟨k, some b, "A", ats⟩],
            [⟨k, a, b, ats⟩],
            [Stmt.overrideInsert, Stmt.sourceInsert, Stmt.demoteUpdate]) := by
  have hch : changedPairs [⟨k, some a, "A", ats⟩] [PFloat.num b] =
      [(⟨k, some a, "A", ats⟩, PFloat.num b)] := by
    simp [changedPairs, activeRows, toPandas, pandasNe, hab]
  have hrec : mkRec (⟨k, some a, "A", ats⟩, PFloat.num b) = (⟨k, a, b, ats⟩ : ORec) := by
    simp [mkRec]
  have hmat : matchesForInsert [⟨k, some a, "A", ats⟩] ⟨k, a, b, ats⟩ =
      [⟨k, some a, "A", ats⟩] := by
    simp [matchesForInsert, keyMatch_refl, sqlEqOld]
  have hins : insertStep [⟨k, some a, "A", ats⟩] [⟨k, a, b, ats⟩] =
      [⟨k, some a, "A", ats⟩, ⟨k, some b, "A", ats⟩] := by
    simp [insertStep, insertedRows, hmat, newActiveRow]
  have hd1 : demoteRow [⟨k, a, b, ats⟩] ⟨k, some a, "A", ats⟩ = ⟨k, some a, "D", ats⟩ := by
    simp [demoteRow, demoteKeyMatch_eq, keyMatch_refl, sqlEqOld]
  have hd2 : demoteRow [⟨k, a, b, ats⟩] ⟨k, some b, "A", ats⟩ = ⟨k, some b, "A", ats⟩ := by
    simp [demoteRow, demoteKeyMatch_eq, keyMatch_refl, sqlEqOld, hab.symm]
  simp [runBatch, hch, rowOk, hrec, hins, demoteStep, hd1, hd2]

lemma runBatch_second (k : Key) (ats : List Cell) (a b c : ℚ)
    (hbc : b ≠ c) (hca : c ≠ a) (hba : b ≠ a) :
    runBatch [⟨k, some a, "D", ats⟩, ⟨k, some b, "A", ats⟩] [⟨k, a, b, ats⟩]
        [PFloat.num c] =
      some ([⟨k, some a, "D", ats⟩, ⟨k, some b, "D", ats⟩, ⟨k, some c, "A", ats⟩],
            [⟨k, a, b, ats⟩, ⟨k, b, c, ats⟩],
            [Stmt.overrideInsert, Stmt.sourceInsert, Stmt.demoteUpdate]) := by
  have hDA : (("D" : String) == "A") = false := by decide
  have hch : changedPairs [⟨k, some a, "D", ats⟩, ⟨k, some b, "A", ats⟩] [PFloat.num c] =
      [(⟨k, some b, "A", ats⟩, PFloat.num c)] := by
    simp [changedPairs, activeRows, toPandas, pandasNe, hbc, hDA]
  have hrec : mkRec (⟨k, some b, "A", ats⟩, PFloat.num c) = (⟨k, b, c, ats⟩ : ORec) := by
    simp [mkRec]
  have hmat1 : matchesForInsert [⟨k, some a, "D", ats⟩, ⟨k, some b, "A", ats⟩]
      ⟨k, a, b, ats⟩ = [] := by
    simp [matchesForInsert, keyMatch_refl, sqlEqOld, hDA, hba]
  have hmat2 : matchesForInsert [⟨k, some a, "D", ats⟩, ⟨k, some b, "A", ats⟩]
      ⟨k, b, c, ats⟩ = [⟨k, some b, "A", ats⟩] := by
    simp [matchesForInsert, keyMatch_refl, sqlEqOld, hDA]
  have hins : insertStep [⟨k, some a, "D", ats⟩, ⟨k, some b, "A", ats⟩]
      [⟨k, a, b, ats⟩, ⟨k, b, c, ats⟩] =
      [⟨k, some a, "D", ats⟩, ⟨k, some b, "A", ats⟩, ⟨k, some c, "A", ats⟩] := by
    simp [insertStep, insertedRows, hmat1, hmat2, newActiveRow]
  have hDAne : ("D" : String) ≠ "A" := by decide
  have hdA : demoteRow [⟨k, a, b, ats⟩, ⟨k, b, c, ats⟩] ⟨k, some a, "D", ats⟩ =
      ⟨k, some a, "D", ats⟩ :=
    demoteRow_of_not_active _ _ hDAne
  have hdB : demoteRow [⟨k, a, b, ats⟩, ⟨k, b, c, ats⟩] ⟨k, some b, "A", ats⟩ =
      ⟨k, some b, "D", ats⟩ := by
    simp [demoteRow, demoteKeyMatch_eq, keyMatch_refl, sqlEqOld]
  have hdC : demoteRow [⟨k, a, b, ats⟩, ⟨k, b, c, ats⟩] ⟨k, some c, "A", ats⟩ =
      ⟨k, some c, "A", ats⟩ := by
    simp [demoteRow, demoteKeyMatch_eq, keyMatch_refl, sqlEqOld, hca, hbc.symm]
  simp [runBatch, hch, rowOk, hrec, hins, demoteStep, hdA, hdB, hdC]

/-- C1, counterexample to the claim as stated: a source table holding one
Active row under the NULL key and one Active row under the empty-string
key (two distinct natural keys, so at most one Active row per key holds)
is taken by one successfully completed batch, editing only the NULL-keyed
row, to a table with two Active rows for the NULL key: the COALESCE key
encoding makes the override record join both rows, so the insert step
fires twice. -/
theorem C1_at_most_one_active_cex :
    atMostOneActive [⟨[none], some 100, "A", []⟩, ⟨[some ""], some 100, "A", []⟩] ∧
    runBatch [⟨[none], some 100, "A", []⟩, ⟨[some ""], some 100, "A", []⟩] []
        [PFloat.num 150, PFloat.num 100] =
      some ([⟨[none], some 100, "D", []⟩, ⟨[some ""], some 100, "D", []⟩,
             ⟨[none], some 150, "A", []⟩, ⟨[none], some 150, "A", []⟩],
            [⟨[none], 100, 150, []⟩],
            [Stmt.overrideInsert, Stmt.sourceInsert, Stmt.demoteUpdate]) ∧
    ¬ atMostOneActive [⟨[none], some 100, "D", []⟩, ⟨[some ""], some 100, "D", []⟩,
        ⟨[none], some 150, "A", []⟩, ⟨[none], some 150, "A", []⟩] := by
  decide

/-- C1 (amended): starting from an empty override table and a source table
in which at most one row per natural key has RECORD_FLAG set to Active,
and in which no two distinct key tuples coincide under the COALESCE
null-to-empty-string encoding used by the joins, every sequence of
successfully completed submit batches leaves at most one Active source row
per natural key. -/
theorem C1_at_most_one_active (S0 : List SRow) (bs : List (List PFloat))
    (Sf : List SRow) (Tf : List ORec)
    (hK : KeysOK S0 []) (hA : atMostOneActive S0)
    (h : runBatches S0 [] bs = some (Sf, Tf)) : atMostOneActive Sf :=
  (good_runBatches ⟨hK, hA, fun _ _ _ r hr => absurd hr (List.not_mem_nil r)⟩ h).2.1

/-- C1, witness: the amended theorem applied to one concrete batch that
overrides the single Active row of a one-key table. -/
theorem C1_at_most_one_active_witness :
    KeysOK [(⟨[some "X"], some 100, "A", []⟩ : SRow)] [] ∧
    atMostOneActive [(⟨[some "X"], some 100, "A", []⟩ : SRow)] ∧
    atMostOneActive [(⟨[some "X"], some 100, "D", []⟩ : SRow),
      ⟨[some "X"], some 150, "A", []⟩] :=
  ⟨by decide, by decide,
    C1_at_most_one_active [⟨[some "X"], some 100, "A", []⟩] [[PFloat.num 150]]
      [⟨[some "X"], some 100, "D", []⟩, ⟨[some "X"], some 150, "A", []⟩]
      [⟨[some "X"], 100, 150, []⟩] (by decide) (by decide) (by decide)⟩

/-- C2, counterexample to the claim as stated: submitting a snapshot
identical to the original reports the no-changes message and issues no
override insert, but the Source Mutator INSERT...SELECT and the demote
UPDATE are still executed; with a pre-existing override record matching
the Active row they even rewrite the source table. -/
theorem C2_noop_submit_cex :
    changedPairs [⟨[some "X"], some 100, "A", []⟩] [PFloat.num 100] = [] ∧
    runBatch [⟨[some "X"], some 100, "A", []⟩] [⟨[some "X"], 100, 150, []⟩]
        [PFloat.num 100] =
      some ([⟨[some "X"], some 100, "D", []⟩, ⟨[some "X"], some 150, "A", []⟩],
            [⟨[some "X"], 100, 150, []⟩],
            [Stmt.sourceInsert, Stmt.demoteUpdate]) := by
  decide

/-- C2 (amended): when the edited snapshot is identical to the original,
the submit reports the distinct no-changes outcome and the Override
Recorder issues no insert (the target table is unchanged), but the Source
Mutator INSERT...SELECT and the demote UPDATE statements are still
issued. -/
theorem C2_noop_submit (S : List SRow) (T : List ORec) (e : List PFloat)
    (h : changedPairs S e = []) :
    noOpReported S e = true ∧
    ∃ S2, runBatch S T e = some (S2, T, [Stmt.sourceInsert, Stmt.demoteUpdate]) := by
  refine ⟨by simp [noOpReported, h], ⟨demoteStep (insertStep S T) T, ?_⟩⟩
  simp [runBatch, h]

/-- C2, witness: the amended theorem applied to an unchanged one-row
snapshot. -/
theorem C2_noop_submit_witness :
    changedPairs [(⟨[some "X"], some 100, "A", []⟩ : SRow)] [PFloat.num 100] = [] ∧
    (noOpReported [(⟨[some "X"], some 100, "A", []⟩ : SRow)] [PFloat.num 100] = true ∧
      ∃ S2, runBatch [(⟨[some "X"], some 100, "A", []⟩ : SRow)] [] [PFloat.num 100] =
        some (S2, [], [Stmt.sourceInsert, Stmt.demoteUpdate])) :=
  ⟨by decide, C2_noop_submit [⟨[some "X"], some 100, "A", []⟩] [] [PFloat.num 100] (by decide)⟩

/-- C3, behaviour of the change detector at the failing input: pandas
compares with a plain not-equal, so a row whose editable value is missing
in both snapshots (NaN on both sides) is reported as a change, the exact
spurious change the claim rules out; the spurious change then even aborts
the batch because the missing old value interpolates as the bare token
nan.  By-value comparison of ordinary numbers behaves as claimed: the
numeric cells of int 5 and float 5.0 both denote the number 5 and compare
equal, while 5 and 6 compare as a change. -/
theorem C3_change_detector_behavior :
    changedPairs [⟨[some "K"], none, "A", []⟩] [PFloat.nan] =
      [(⟨[some "K"], none, "A", []⟩, PFloat.nan)] ∧
    pandasNe PFloat.nan PFloat.nan = true ∧
    pandasNe (PFloat.num 5) (PFloat.num 5) = false ∧
    pandasNe (PFloat.num 5) (PFloat.num 6) = true ∧
    runBatch [⟨[some "K"], none, "A", []⟩] [] [PFloat.nan] = none := by
  decide

/-- C4, behaviour at the failing input: when the Source Mutator INSERT
raises after the Override Recorder succeeded, the exception is caught and
reported, nothing rolls back (each statement auto-commits), and the demote
UPDATE still runs: the override record stays persisted, no new Active row
exists, and the key is left with zero Active rows. -/
theorem C4_no_rollback_behavior :
    runBatchMutatorFails [⟨[some "X"], some 100, "A", []⟩] [] [PFloat.num 150] =
      some ([⟨[some "X"], some 100, "D", []⟩],
            [⟨[some "X"], 100, 150, []⟩],
            [Stmt.overrideInsert, Stmt.sourceInsert, Stmt.demoteUpdate]) ∧
    activeRows [(⟨[some "X"], some 100, "D", []⟩ : SRow)] = [] := by
  decide

/-- C5, counterexample to the claim as stated: the key comparison of both
the insert join and the demote update is not strict null-safe equality; it
treats a NULL key as equal to an empty-string key, so an override record
with a NULL key demotes an Active row whose key is the empty string. -/
theorem C5_key_join_cex :
    insertKeyMatch [some ""] [none] = true ∧
    demoteKeyMatch [some ""] [none] = true ∧
    specNullSafeKeys [some ""] [none] = false ∧
    demoteStep [⟨[some ""], some 1, "A", []⟩] [⟨[none], 1, 2, []⟩] =
      [⟨[some ""], some 1, "D", []⟩] := by
  decide

/-- C5 (amended): both the insert join and the demote update compare every
joining key with COALESCE(key, empty string) on both sides of a plain
equality, conjoined with AND; this treats NULL-vs-NULL as equal, and every
pair of key tuples related by strict null-safe equality also matches (so
rows with legitimately null keys are not dropped), but the encoding
additionally equates NULL with the empty string, unlike strict null-safe
equality. -/
theorem C5_key_join :
    (∀ tk sk : Key, demoteKeyMatch tk sk = insertKeyMatch tk sk) ∧
    (∀ tk sk : Key, insertKeyMatch tk sk = true ↔
      ∀ p ∈ tk.zip sk, p.1.getD "" = p.2.getD "") ∧
    (∀ tk sk : Key, specNullSafeKeys tk sk = true → insertKeyMatch tk sk = true) ∧
    (∀ ks : Key, insertKeyMatch ks ks = true) := by
  refine ⟨fun _ _ => rfl, ?_, ?_, keyMatch_refl⟩
  · intro tk sk
    simp [insertKeyMatch, List.all_eq_true]
  · intro tk sk h
    simp only [specNullSafeKeys, List.all_eq_true] at h
    simp only [insertKeyMatch, List.all_eq_true]
    intro p hp
    have hps := h p hp
    cases hp1 : p.1 with
    | none =>
      cases hp2 : p.2 with
      | none => simp
      | some y => rw [hp1, hp2] at hps; simp [specNullSafeEq] at hps
    | some x =>
      cases hp2 : p.2 with
      | none => rw [hp1, hp2] at hps; simp [specNullSafeEq] at hps
      | some y =>
        rw [hp1, hp2] at hps
        simp only [specNullSafeEq, beq_iff_eq] at hps
        simp [hps]

/-- C5, witness: a key pair made of one shared string key and one shared
NULL key is null-safe equal, hence matched by the code join. -/
theorem C5_key_join_witness :
    specNullSafeKeys [some "k1", none] [some "k1", none] = true ∧
    insertKeyMatch [some "k1", none] [some "k1", none] = true :=
  ⟨by decide, C5_key_join.2.2.1 [some "k1", none] [some "k1", none] (by decide)⟩

/-- C6: the demote update flips RECORD_FLAG to Deprecated only on rows
that are currently Active and whose editable value equals the recorded OLD
value of some key-matching override record, and it never touches a row
that is not Active; consequently, for two sequential edits of the same
natural key the second demote flips the row written by the first edit and
leaves the original, already superseded row untouched. -/
theorem C6_demote_targets :
    (∀ (T : List ORec) (s : SRow), demoteRow T s ≠ s →
      s.flag = "A" ∧ demoteRow T s = { s with flag := "D" } ∧
      ∃ r ∈ T, (demoteKeyMatch s.key r.key && sqlEqOld s.val r.oldVal) = true) ∧
    (∀ (T : List ORec) (s : SRow), s.flag ≠ "A" → demoteRow T s = s) ∧
    (∀ (k : Key) (ats : List Cell) (a b c : ℚ), a ≠ b → b ≠ c → a ≠ c →
      runBatches [⟨k, some a, "A", ats⟩] [] [[PFloat.num b], [PFloat.num c]] =
        some ([⟨k, some a, "D", ats⟩, ⟨k, some b, "D", ats⟩, ⟨k, some c, "A", ats⟩],
              [⟨k, a, b, ats⟩, ⟨k, b, c, ats⟩])) := by
  refine ⟨?_, fun T s h => demoteRow_of_not_active T s h, ?_⟩
  · intro T s hne
    unfold demoteRow at hne ⊢
    by_cases hc : (s.flag == "A" &&
        T.any fun r => demoteKeyMatch s.key r.key && sqlEqOld s.val r.oldVal) = true
    · rw [if_pos hc] at hne ⊢
      simp only [Bool.and_eq_true, beq_iff_eq] at hc
      obtain ⟨hfl, hany⟩ := hc
      rcases List.any_eq_true.mp hany with ⟨r, hr, hpred⟩
      exact ⟨hfl, rfl, r, hr, hpred⟩
    · rw [if_neg hc] at hne
      exact absurd rfl hne
  · intro k ats a b c hab hbc hac
    have h1 := runBatch_first k ats a b hab
    have h2 := runBatch_second k ats a b c hbc (Ne.symm hac) (Ne.symm hab)
    simp [runBatches, h1, h2]

/-- C6, witness: the theorem applied to a concrete override record that
demotes the matching Active row, and to the concrete two-edit scenario
100 to 150 to 200. -/
theorem C6_demote_targets_witness :
    (demoteRow [(⟨[some "X"], 100, 150, []⟩ : ORec)] ⟨[some "X"], some 100, "A", []⟩ ≠
      ⟨[some "X"], some 100, "A", []⟩) ∧
    ((⟨[some "X"], some 100, "A", []⟩ : SRow).flag = "A" ∧
      demoteRow [(⟨[some "X"], 100, 150, []⟩ : ORec)] ⟨[some "X"], some 100, "A", []⟩ =
        ⟨[some "X"], some 100, "D", []⟩ ∧
      ∃ r ∈ [(⟨[some "X"], 100, 150, []⟩ : ORec)],
        (demoteKeyMatch [some "X"] r.key && sqlEqOld (some 100) r.oldVal) = true) ∧
    runBatches [⟨[some "X"], some 100, "A", []⟩] [] [[PFloat.num 150], [PFloat.num 200]] =
      some ([⟨[some "X"], some 100, "D", []⟩, ⟨[some "X"], some 150, "D", []⟩,
             ⟨[some "X"], some 200, "A", []⟩],
            [⟨[some "X"], 100, 150, []⟩, ⟨[some "X"], 150, 200, []⟩]) :=
  ⟨by decide,
    C6_demote_targets.1 [⟨[some "X"], 100, 150, []⟩] ⟨[some "X"], some 100, "A", []⟩
      (by decide),
    C6_demote_targets.2.2 [some "X"] [] 100 150 200 (by decide) (by decide) (by decide)⟩

/-- C7: the common columns are exactly the source-frame columns also
present in the target schema minus the editable column, RECORD_FLAG,
AS_OF_DATE and AS_AT_DATE, and the insert column list is exactly the
common columns followed by AS_OF_DATE, the insertion-timestamp column
SRC_INS_TS, the OLD and NEW columns of the editable column, RECORD_FLAG
(whose written value O differs from the source Active and Deprecated
flags) and AS_AT_DATE. -/
theorem C7_override_columns :
    (∀ (srcCols tgtCols : List String) (e : String),
      commonColumns srcCols tgtCols e = specCommonColumns srcCols tgtCols e) ∧
    (∀ (srcCols tgtCols : List String) (e : String),
      columnsToInsert srcCols tgtCols e =
        commonColumns srcCols tgtCols e ++
          ["AS_OF_DATE", "SRC_INS_TS", e ++ "_OLD", e ++ "_NEW", "RECORD_FLAG",
            "AS_AT_DATE"]) ∧
    overrideRecordFlag ≠ sourceActiveFlag ∧ overrideRecordFlag ≠ sourceDeprecatedFlag := by
  refine ⟨?_, fun _ _ _ => rfl, by decide, by decide⟩
  intro srcCols tgtCols e
  unfold commonColumns specCommonColumns
  apply List.filter_congr
  intro c _
  simp only [excludedFromCommon, List.contains_cons, List.contains_nil, Bool.or_false,
    Bool.not_or]
  cases h1 : tgtCols.contains c <;>
    cases h2 : c == e <;>
      cases h3 : c == "AS_AT_DATE" <;>
        cases h4 : c == "RECORD_FLAG" <;>
          cases h5 : c == "AS_OF_DATE" <;>
            simp [h1, h2, h3, h4, h5]

lemma escapeList_id (l : List Char) (h : ∀ ch ∈ l, ch ≠ '\x27') :
    l.foldr (fun c acc => if c = '\x27' then '\x27' :: '\x27' :: acc else c :: acc) [] = l := by
  induction l with
  | nil => rfl
  | cons ch t ih =>
    simp only [List.foldr_cons, if_neg (h ch (List.mem_cons_self _ _))]
    rw [ih (fun c hc => h c (List.mem_cons_of_mem _ hc))]

/-- C8: the value encoding of the override insert renders a missing value
(None or NaN) as the SQL keyword NULL, wraps a string in single quotes
with every embedded single quote doubled (characters other than single
quotes are kept verbatim), and renders every other scalar by its textual
form. -/
theorem C8_value_encoding :
    (∀ c : Cell, isna c = true → encodeCell c = "NULL") ∧
    (∀ s : String, encodeCell (Cell.str s) = "\x27" ++ escapeQuotes s ++ "\x27") ∧
    (∀ s : String, (∀ ch ∈ s.data, ch ≠ '\x27') → escapeQuotes s = s) ∧
    encodeCell (Cell.str "O\x27Neil") = "\x27O\x27\x27Neil\x27" ∧
    (∀ q : ℚ, encodeCell (Cell.num (PFloat.num q)) = pyStrNum q) := by
  refine ⟨?_, fun s => rfl, ?_, by decide, fun q => rfl⟩
  · intro c h
    simp [encodeCell, h]
  · intro s hs
    cases s with
    | mk l =>
      unfold escapeQuotes
      exact congrArg String.mk (escapeList_id l hs)

/-- C8, witness: a None cell encodes as NULL and a quote-free string is
left unchanged by the escaping. -/
theorem C8_value_encoding_witness :
    isna Cell.null = true ∧ encodeCell Cell.null = "NULL" ∧ escapeQuotes "abc" = "abc" :=
  ⟨rfl, C8_value_encoding.1 Cell.null rfl, C8_value_encoding.2.2.1 "abc" (by decide)⟩

/-- C9: a successfully completed batch never deletes a source row, and
every pre-existing row keeps its key, editable value and descriptive
columns, with RECORD_FLAG either unchanged or flipped to Deprecated; in
particular a row holding the OLD value is still present afterwards. -/
theorem C9_history_preserved (S : List SRow) (T : List ORec) (e : List PFloat)
    (S2 : List SRow) (T2 : List ORec) (log : List Stmt)
    (h : runBatch S T e = some (S2, T2, log)) :
    S.length ≤ S2.length ∧
    ∀ i : ℕ, i < S.length →
      (S2.getD i dummyRow).key = (S.getD i dummyRow).key ∧
      (S2.getD i dummyRow).val = (S.getD i dummyRow).val ∧
      (S2.getD i dummyRow).attrs = (S.getD i dummyRow).attrs ∧
      ((S2.getD i dummyRow).flag = (S.getD i dummyRow).flag ∨
        (S2.getD i dummyRow).flag = "D") := by
  by_cases hok : (changedPairs S e).all rowOk = true
  · simp only [runBatch, hok, if_true] at h
    have h2 := Option.some.inj h
    simp only [Prod.mk.injEq] at h2
    obtain ⟨h3, _, _⟩ := h2
    subst h3
    constructor
    · simp only [demoteStep, insertStep, List.length_map, List.length_append]
      omega
    · intro i hi
      have hrw : (demoteStep (insertStep S (T ++ (changedPairs S e).map mkRec))
          (T ++ (changedPairs S e).map mkRec)).getD i dummyRow =
          demoteRow (T ++ (changedPairs S e).map mkRec) (S.getD i dummyRow) := by
        unfold demoteStep insertStep
        exact getD_map_append _ _ _ _ _ hi
      rw [hrw, demoteRow_key, demoteRow_val, demoteRow_attrs]
      exact ⟨rfl, rfl, rfl, demoteRow_flag _ _⟩
  · simp only [runBatch, hok, if_false] at h
    cases h

/-- C9, witness: the theorem applied to a concrete one-row override batch,
inspected at row index zero. -/
theorem C9_history_preserved_witness :
    [(⟨[some "X"], some 100, "A", []⟩ : SRow)].length ≤
      [(⟨[some "X"], some 100, "D", []⟩ : SRow), ⟨[some "X"], some 150, "A", []⟩].length ∧
    ((([⟨[some "X"], some 100, "D", []⟩, ⟨[some "X"], some 150, "A", []⟩] :
        List SRow).getD 0 dummyRow).key =
      (([(⟨[some "X"], some 100, "A", []⟩ : SRow)] : List SRow).getD 0 dummyRow).key ∧
    ((([⟨[some "X"], some 100, "D", []⟩, ⟨[some "X"], some 150, "A", []⟩] :
        List SRow).getD 0 dummyRow).val =
      (([(⟨[some "X"], some 100, "A", []⟩ : SRow)] : List SRow).getD 0 dummyRow).val) ∧
    ((([⟨[some "X"], some 100, "D", []⟩, ⟨[some "X"], some 150, "A", []⟩] :
        List SRow).getD 0 dummyRow).attrs =
      (([(⟨[some "X"], some 100, "A", []⟩ : SRow)] : List SRow).getD 0 dummyRow).attrs) ∧
    ((([⟨[some "X"], some 100, "D", []⟩, ⟨[some "X"], some 150, "A", []⟩] :
        List SRow).getD 0 dummyRow).flag =
      (([(⟨[some "X"], some 100, "A", []⟩ : SRow)] : List SRow).getD 0 dummyRow).flag ∨
      (([⟨[some "X"], some 100, "D", []⟩, ⟨[some "X"], some 150, "A", []⟩] :
        List SRow).getD 0 dummyRow).flag = "D")) := by
  have h := C9_history_preserved [⟨[some "X"], some 100, "A", []⟩] [] [PFloat.num 150]
    [⟨[some "X"], some 100, "D", []⟩, ⟨[some "X"], some 150, "A", []⟩]
    [⟨[some "X"], 100, 150, []⟩]
    [Stmt.overrideInsert, Stmt.sourceInsert, Stmt.demoteUpdate] (by decide)
  exact ⟨h.1, h.2 0 (by decide)⟩

/-- C10: in the generated VALUES clause only the common-column cells pass
through the NULL and quote-escaping encoding; the OLD and NEW editable
values are interpolated as bare unquoted text via str(), so a missing old
value is emitted as the bare token nan (even though the same missing value
in a common column would encode as NULL), and the as-of and as-at dates
are wrapped in single quotes without any escaping. -/
theorem C10_raw_interpolation :
    (∀ (cs : List Cell) (aof aat : String) (nv : PFloat),
      buildInsertValues cs aof aat PFloat.nan nv =
        String.intercalate ", " (cs.map encodeCell) ++ ",\x27" ++ aof ++
          "\x27, CURRENT_TIMESTAMP(), " ++ "nan" ++ ", " ++ pyFloatStr nv ++
          ", \x27O\x27, \x27" ++ aat ++ "\x27") ∧
    pyFloatStr PFloat.nan = "nan" ∧
    encodeCell (Cell.num PFloat.nan) = "NULL" ∧
    buildInsertValues [Cell.str "O\x27Neil"] "2024-01-01" "x\x27y" PFloat.nan
        (PFloat.num 5) =
      "\x27O\x27\x27Neil\x27,\x272024-01-01\x27, CURRENT_TIMESTAMP(), nan, 5.0, \x27O\x27, \x27x\x27y\x27" := by
  exact ⟨fun cs aof aat nv => rfl, rfl, rfl, by decide⟩

end OverrideApp
